import Mathlib

/-!
Verification of `src/static/js/server_info.js`: a client-side page-update
script that fetches `{api_url}/server_info`, parses the JSON body, and
renders server name, map title, a player table and a background image into
the page DOM.

The embedding is shallow:

* The DOM state touched by the script is a record `Dom` (the three element
  handles looked up at module load, the body background-image style, and an
  opaque `rest` component standing for every other part of the document).
* Each DOM-mutating statement of the script is one `DomEvent`; the render
  callback of `update_info_page` is the event list `render_events`, in the
  exact statement order of the source, and its state semantics
  `render_callback` is the left fold of `applyEvent` over that list.
* `update_background` is the fold of its own (zero- or one-element) event
  list, mirroring `if (image && image != "None") { ... }` with JavaScript
  string truthiness (absent or empty means falsy).
* The asynchronous chain `fetch(...).then(r => r.json()).then(callback)` is
  modelled with a `Promise` sum type (`resolved`/`rejected`) and `andThen`
  (the model of `.then`); a raw, possibly field-missing response together
  with `render_callback_raw` models the JavaScript exception semantics of
  the callback (`data.map.name` throws when `map` is absent,
  `data.players.forEach` throws when `players` is absent).
* A table row is created via `tr.innerHTML = "<td>" + ... + "</td><td>" +
  ... + "</td>"`; `row_html` is that string and `parseCells` recovers the
  cell contents the browser would parse out of it (text content of a cell
  ends at the first `<`).
-/

/-- A player entry of the response: `players[].name`, `players[].skin`. -/
structure Player where
  name : String
  skin : String
deriving DecidableEq

/-- The `map` object of the response: `map.name`, `map.image`. `none`
models an absent `image` field (JavaScript `undefined`). -/
structure MapInfo where
  name : String
  image : Option String
deriving DecidableEq

/-- A well-formed `ServerInfoResponse`: `servername`, `map`, `players`. -/
structure ServerInfoResponse where
  servername : String
  map : MapInfo
  players : List Player
deriving DecidableEq

/-- A successfully parsed JSON body that may lack the `map` or `players`
fields (`none` = absent / not usable: a missing `players` and a
non-sequence `players` both fail at `.forEach`). -/
structure RawResponse where
  servername : String
  map : Option MapInfo
  players : Option (List Player)
deriving DecidableEq

/-- Embeds a well-formed response into the raw shape (all fields present). -/
def toRaw (r : ServerInfoResponse) : RawResponse :=
  { servername := r.servername, map := some r.map, players := some r.players }

/-- Modelled from the spec: the HTML-escaping helper `.escape()` attached to
string values is not part of this source file (the spec lists "the
styling/escaping helper attached to string values" as out of scope but
requires player fields to be "rendered with HTML-escaping before
insertion", with `A<b>` rendering as `A&lt;b&gt;`). This is the standard
HTML escape of the four characters `&`, `<`, `>`, `"`. -/
def escapeChar (c : Char) : List Char :=
  if c = '&' then "&amp;".data
  else if c = '<' then "&lt;".data
  else if c = '>' then "&gt;".data
  else if c = '\x22' then "&quot;".data
  else [c]

/-- HTML-escape a character list: concatenation of `escapeChar`. -/
def escapeL (s : List Char) : List Char :=
  s.flatMap escapeChar

/-- HTML-escape a string (the model of `s.escape()`). -/
def escape (s : String) : String :=
  ⟨escapeL s.data⟩

/-- The string assigned to `tr.innerHTML` for one player:
`"<td>" + player.name.escape() + "</td><td>" + player.skin.escape() + "</td>"`. -/
def row_html (p : Player) : String :=
  "<td>" ++ escape p.name ++ "</td><td>" ++ escape p.skin ++ "</td>"

/-- Cell parser helper: inside a `<td>` cell, accumulate text content
(reversed in `acc`) until `</td>`; text content ends at the first `<`.
After a closing `</td>` either the row ends or another `<td>` starts. -/
def parseCellsGo : List Char → List Char → Option (List (List Char))
  | _, [] => none
  | acc, c :: rest =>
      if c = '<' then
        match rest with
        | '/' :: 't' :: 'd' :: '>' :: rest2 =>
            match rest2 with
            | [] => some [acc.reverse]
            | '<' :: 't' :: 'd' :: '>' :: rest3 => (parseCellsGo [] rest3).map (acc.reverse :: ·)
            | _ => none
        | _ => none
      else parseCellsGo (c :: acc) rest

/-- Parses a row's `innerHTML` of the shape `<td>…</td><td>…</td>…` into the
list of cell text contents, as the browser DOM parser would. -/
def parseCells : List Char → Option (List (List Char))
  | [] => some []
  | '<' :: 't' :: 'd' :: '>' :: rest => parseCellsGo [] rest
  | _ => none

theorem parseCellsGo_cons (acc : List Char) (c : Char) (l : List Char) (hc : c ≠ '<') :
    parseCellsGo acc (c :: l) = parseCellsGo (c :: acc) l := by
  rw [parseCellsGo.eq_def]
  simp [hc]

theorem parseCellsGo_last (acc : List Char) (e : List Char) (he : ∀ c ∈ e, c ≠ '<') :
    parseCellsGo acc (e ++ ['<', '/', 't', 'd', '>']) = some [acc.reverse ++ e] := by
  induction e generalizing acc with
  | nil => simp [parseCellsGo]
  | cons c cs ih =>
    have hc : c ≠ '<' := he c (by simp)
    rw [List.cons_append, parseCellsGo_cons _ _ _ hc,
      ih (c :: acc) (fun x hx => he x (by simp [hx]))]
    simp

theorem parseCellsGo_mid (acc : List Char) (e : List Char) (rest : List Char)
    (he : ∀ c ∈ e, c ≠ '<') :
    parseCellsGo acc (e ++ '<' :: '/' :: 't' :: 'd' :: '>' :: '<' :: 't' :: 'd' :: '>' :: rest) =
      (parseCellsGo [] rest).map ((acc.reverse ++ e) :: ·) := by
  induction e generalizing acc with
  | nil => simp [parseCellsGo]
  | cons c cs ih =>
    have hc : c ≠ '<' := he c (by simp)
    rw [List.cons_append, parseCellsGo_cons _ _ _ hc,
      ih (c :: acc) (fun x hx => he x (by simp [hx]))]
    simp

/-- No output of `escapeChar` contains `<` (even `<` itself escapes to
`&lt;`). -/
theorem escapeChar_no_lt (c : Char) : ∀ x ∈ escapeChar c, x ≠ '<' := by
  unfold escapeChar
  split_ifs with h1 h2 h3 h4 <;> simp_all

/-- No output of `escapeChar` contains `>`. -/
theorem escapeChar_no_gt (c : Char) : ∀ x ∈ escapeChar c, x ≠ '>' := by
  unfold escapeChar
  split_ifs with h1 h2 h3 h4 <;> simp_all

/-- No output of `escapeChar` contains `"`. -/
theorem escapeChar_no_quot (c : Char) : ∀ x ∈ escapeChar c, x ≠ '\x22' := by
  unfold escapeChar
  split_ifs with h1 h2 h3 h4 <;> simp_all

theorem escapeL_no_lt (s : List Char) : ∀ x ∈ escapeL s, x ≠ '<' := by
  intro x hx
  rw [escapeL, List.mem_flatMap] at hx
  obtain ⟨c, _, hc⟩ := hx
  exact escapeChar_no_lt c x hc

theorem escapeL_no_gt (s : List Char) : ∀ x ∈ escapeL s, x ≠ '>' := by
  intro x hx
  rw [escapeL, List.mem_flatMap] at hx
  obtain ⟨c, _, hc⟩ := hx
  exact escapeChar_no_gt c x hc

theorem escapeL_no_quot (s : List Char) : ∀ x ∈ escapeL s, x ≠ '\x22' := by
  intro x hx
  rw [escapeL, List.mem_flatMap] at hx
  obtain ⟨c, _, hc⟩ := hx
  exact escapeChar_no_quot c x hc

/-- The cells parsed back out of `row_html p` are exactly the two escaped
fields, in order. -/
theorem parseCells_row_html (p : Player) :
    parseCells (row_html p).data = some [escapeL p.name.data, escapeL p.skin.data] := by
  have hdata : (row_html p).data =
      '<' :: 't' :: 'd' :: '>' ::
        (escapeL p.name.data ++ '<' :: '/' :: 't' :: 'd' :: '>' :: '<' :: 't' :: 'd' :: '>' ::
          (escapeL p.skin.data ++ ['<', '/', 't', 'd', '>'])) := by
    simp only [row_html, String.data_append, escape]
    simp [List.append_assoc]
  rw [hdata]
  show parseCellsGo [] _ = _
  rw [parseCellsGo_mid _ _ _ (escapeL_no_lt p.name.data),
    parseCellsGo_last _ _ (escapeL_no_lt p.skin.data)]
  simp

/-- The DOM state the script touches: the three elements looked up by id at
module load (`players_table` is the list of its child rows, each row given
by its `innerHTML`), the body's `backgroundImage` style string, and `rest`,
an opaque association of every other document location to its content. -/
structure Dom where
  map_title : String
  server_name : String
  players_table : List String
  backgroundImage : String
  rest : List (String × String)
deriving DecidableEq

/-- One DOM-mutating statement of the script. -/
inductive DomEvent where
  | setMapTitle (s : String)
  | setServerName (s : String)
  | clearPlayersTable
  | setBackground (url : String)
  | appendRow (html : String)
deriving DecidableEq

/-- The effect of one statement on the DOM state. -/
def applyEvent (d : Dom) : DomEvent → Dom
  | .setMapTitle s => { d with map_title := s }
  | .setServerName s => { d with server_name := s }
  | .clearPlayersTable => { d with players_table := [] }
  | .setBackground u => { d with backgroundImage := u }
  | .appendRow h => { d with players_table := d.players_table ++ [h] }

/-- The statements executed by `update_background(image)`: one background
assignment when `image` is truthy (present and non-empty) and not the
literal `"None"`, none otherwise. The assigned value is
`"url('" + static_dir + "/img/" + image + "')"`. -/
def update_background_events (image : Option String) (static_dir : String) : List DomEvent :=
  match image with
  | some img =>
      if img ≠ "" ∧ img ≠ "None" then
        [.setBackground ("url(\x27" ++ static_dir ++ "/img/" ++ img ++ "\x27)")]
      else []
  | none => []

/-- State semantics of `update_background(image)`. -/
def update_background (image : Option String) (static_dir : String) (d : Dom) : Dom :=
  (update_background_events image static_dir).foldl applyEvent d

/-- The statement sequence of the render callback of `update_info_page`, in
source order: set the map title, set the server name, clear the players
table, run `update_background(data.map.image)`, then append one row per
player. -/
def render_events (static_dir : String) (data : ServerInfoResponse) : List DomEvent :=
  [.setMapTitle data.map.name, .setServerName data.servername, .clearPlayersTable]
    ++ update_background_events data.map.image static_dir
    ++ (data.players.map fun p => .appendRow (row_html p))

/-- State semantics of the render callback on a well-formed response. -/
def render_callback (static_dir : String) (data : ServerInfoResponse) (d : Dom) : Dom :=
  (render_events static_dir data).foldl applyEvent d

/-- A JavaScript promise outcome: resolved with a value, or rejected. -/
inductive Promise (α : Type) where
  | resolved (value : α)
  | rejected
deriving DecidableEq

/-- The model of `.then(f)`: a rejection propagates past the callback. -/
def Promise.andThen {α β : Type} : Promise α → (α → Promise β) → Promise β
  | .resolved a, f => f a
  | .rejected, _ => .rejected

/-- The outcome of `fetch(api_url + "/server_info")`: on success, a response
object whose `json()` either yields the parsed body or rejects (malformed
JSON); a network/transport failure is `rejected`. -/
structure Response where
  json : Promise RawResponse

/-- `get_server_info` without its final callback:
`fetch(api_url + "/server_info").then(response => response.json())`. -/
def get_server_info (fetchResult : Promise Response) : Promise RawResponse :=
  fetchResult.andThen fun response => response.json

/-- The render callback on a raw response, with JavaScript exception
semantics: `(final DOM, whether a TypeError was thrown)`. When `map` is
absent, `data.map.name` throws before any DOM write; when `players` is
absent (or not a sequence), `data.players.forEach` throws after the title,
name, table-clear and background statements already ran. -/
def render_callback_raw (static_dir : String) (data : RawResponse) (d : Dom) : Dom × Bool :=
  match data.map with
  | none => (d, true)
  | some m =>
    let d1 := applyEvent d (.setMapTitle m.name)
    let d2 := applyEvent d1 (.setServerName data.servername)
    let d3 := applyEvent d2 .clearPlayersTable
    let d4 := update_background m.image static_dir d3
    match data.players with
    | none => (d4, true)
    | some ps => (ps.foldl (fun dd p => applyEvent dd (.appendRow (row_html p))) d4, false)

/-- One whole `update_info_page()` cycle given the fetch outcome:
`(final DOM, whether an unhandled asynchronous rejection occurred)`. If the
chain rejects before the callback, the callback never runs and the DOM is
untouched; otherwise the callback runs with exception semantics (a throw
inside `.then` also surfaces as an unhandled rejection). -/
def update_info_page (static_dir : String) (fetchResult : Promise Response) (d : Dom) :
    Dom × Bool :=
  match get_server_info fetchResult with
  | .rejected => (d, true)
  | .resolved data => render_callback_raw static_dir data d

/-- Folding row-append events appends exactly those rows, touching nothing
else. -/
theorem foldl_appendRow (rs : List String) (d : Dom) :
    ((rs.map DomEvent.appendRow).foldl applyEvent d) =
      { d with players_table := d.players_table ++ rs } := by
  induction rs generalizing d with
  | nil => simp
  | cons r rs ih =>
    simp only [List.map_cons, List.foldl_cons, applyEvent, ih]
    simp

/-- Explicit form of `update_background`. -/
theorem update_background_eq (image : Option String) (static_dir : String) (d : Dom) :
    update_background image static_dir d =
      match image with
      | some img =>
          if img ≠ "" ∧ img ≠ "None" then
            { d with backgroundImage := "url(\x27" ++ static_dir ++ "/img/" ++ img ++ "\x27)" }
          else d
      | none => d := by
  cases image with
  | none => rfl
  | some img =>
    by_cases h : img ≠ "" ∧ img ≠ "None" <;>
      simp [update_background, update_background_events, h, applyEvent]

/-- The background produced by `update_background` depends on the prior DOM
only through its background. -/
theorem update_background_backgroundImage (image : Option String) (static_dir : String)
    (d d' : Dom) (h : d.backgroundImage = d'.backgroundImage) :
    (update_background image static_dir d).backgroundImage =
      (update_background image static_dir d').backgroundImage := by
  rw [update_background_eq, update_background_eq]
  cases image with
  | none => exact h
  | some img => by_cases hc : img ≠ "" ∧ img ≠ "None" <;> simp [hc, h]

/-- `update_background` touches nothing but the background. -/
theorem update_background_frame (image : Option String) (static_dir : String) (d : Dom) :
    (update_background image static_dir d).map_title = d.map_title ∧
    (update_background image static_dir d).server_name = d.server_name ∧
    (update_background image static_dir d).players_table = d.players_table ∧
    (update_background image static_dir d).rest = d.rest := by
  rw [update_background_eq]
  cases image with
  | none => exact ⟨rfl, rfl, rfl, rfl⟩
  | some img => by_cases hc : img ≠ "" ∧ img ≠ "None" <;> simp [hc]

/-- Full characterisation of the render callback's final state. -/
theorem render_callback_eq (static_dir : String) (data : ServerInfoResponse) (d : Dom) :
    render_callback static_dir data d =
      { map_title := data.map.name,
        server_name := data.servername,
        players_table := data.players.map row_html,
        backgroundImage := (update_background data.map.image static_dir d).backgroundImage,
        rest := d.rest } := by
  unfold render_callback render_events
  rw [List.foldl_append, List.foldl_append]
  have h3 : [DomEvent.setMapTitle data.map.name, DomEvent.setServerName data.servername,
      DomEvent.clearPlayersTable].foldl applyEvent d =
      { d with map_title := data.map.name, server_name := data.servername, players_table := ([] : List String) } := rfl
  rw [h3]
  have hmap : (data.players.map fun p => DomEvent.appendRow (row_html p)) =
      ((data.players.map row_html).map DomEvent.appendRow) := by
    rw [List.map_map]
    rfl
  rw [hmap, foldl_appendRow]
  have hub : ∀ dd : Dom, (update_background_events data.map.image static_dir).foldl applyEvent dd =
      update_background data.map.image static_dir dd := fun _ => rfl
  rw [hub]
  have hbg := update_background_frame data.map.image static_dir
    { d with map_title := data.map.name, server_name := data.servername, players_table := ([] : List String) }
  have hbg2 := update_background_backgroundImage data.map.image static_dir
    { d with map_title := data.map.name, server_name := data.servername, players_table := ([] : List String) }
    d rfl
  obtain ⟨h1, h2, h4, h5⟩ := hbg
  cases hd : update_background data.map.image static_dir
    { d with map_title := data.map.name, server_name := data.servername, players_table := ([] : List String) }
  rw [hd] at h1 h2 h4 h5 hbg2
  simp_all

/-- On an embedded well-formed response the raw callback never throws and
agrees with `render_callback`. -/
theorem render_callback_raw_toRaw (static_dir : String) (r : ServerInfoResponse) (d : Dom) :
    render_callback_raw static_dir (toRaw r) d = (render_callback static_dir r d, false) := by
  unfold render_callback_raw toRaw render_callback render_events
  simp only [List.foldl_append]
  have hrows : ∀ dd : Dom,
      r.players.foldl (fun x p => applyEvent x (DomEvent.appendRow (row_html p))) dd =
        (r.players.map fun p => DomEvent.appendRow (row_html p)).foldl applyEvent dd := by
    intro dd
    rw [List.foldl_map]
  have hub : ∀ dd : Dom, List.foldl applyEvent dd
      (update_background_events r.map.image static_dir) =
      update_background r.map.image static_dir dd := fun _ => rfl
  simp [hrows, hub]

/-- The four entity strings the escape helper may emit. -/
def entities : List (List Char) :=
  ["&amp;".data, "&lt;".data, "&gt;".data, "&quot;".data]

/-- Every occurrence of `&` in `e` is escaped: every suffix of `e` beginning
with `&` begins with one of the four entities. -/
def AmpSafe (e : List Char) : Prop :=
  ∀ t, t <:+ e → t.head? = some '&' → ∃ ent ∈ entities, ent.isPrefixOf t = true

/-- The spec's "no literal unescaped occurrence" of `<`, `>`, `&`, `"`. -/
def noUnescaped (e : List Char) : Prop :=
  '<' ∉ e ∧ '>' ∉ e ∧ '\x22' ∉ e ∧ AmpSafe e

theorem ampSafe_nil : AmpSafe [] := by
  intro t ht hh
  rw [List.suffix_nil] at ht
  simp [ht] at hh

theorem ampSafe_cons (c : Char) (l : List Char) (hc : c ≠ '&') (hl : AmpSafe l) :
    AmpSafe (c :: l) := by
  intro t ht hh
  rw [List.suffix_cons_iff] at ht
  rcases ht with rfl | ht
  · simp at hh
    exact absurd hh hc
  · exact hl t ht hh

theorem ampSafe_amp (l : List Char) (hl : AmpSafe l) :
    AmpSafe ('&' :: 'a' :: 'm' :: 'p' :: ';' :: l) := by
  intro t ht hh
  simp only [List.suffix_cons_iff] at ht
  rcases ht with rfl | rfl | rfl | rfl | rfl | ht
  · exact ⟨"&amp;".data, by simp [entities], by simp [List.isPrefixOf]⟩
  · simp at hh
  · simp at hh
  · simp at hh
  · simp at hh
  · exact hl t ht hh

theorem ampSafe_lt (l : List Char) (hl : AmpSafe l) :
    AmpSafe ('&' :: 'l' :: 't' :: ';' :: l) := by
  intro t ht hh
  simp only [List.suffix_cons_iff] at ht
  rcases ht with rfl | rfl | rfl | rfl | ht
  · exact ⟨"&lt;".data, by simp [entities], by simp [List.isPrefixOf]⟩
  · simp at hh
  · simp at hh
  · simp at hh
  · exact hl t ht hh

theorem ampSafe_gt (l : List Char) (hl : AmpSafe l) :
    AmpSafe ('&' :: 'g' :: 't' :: ';' :: l) := by
  intro t ht hh
  simp only [List.suffix_cons_iff] at ht
  rcases ht with rfl | rfl | rfl | rfl | ht
  · exact ⟨"&gt;".data, by simp [entities], by simp [List.isPrefixOf]⟩
  · simp at hh
  · simp at hh
  · simp at hh
  · exact hl t ht hh

theorem ampSafe_quot (l : List Char) (hl : AmpSafe l) :
    AmpSafe ('&' :: 'q' :: 'u' :: 'o' :: 't' :: ';' :: l) := by
  intro t ht hh
  simp only [List.suffix_cons_iff] at ht
  rcases ht with rfl | rfl | rfl | rfl | rfl | rfl | ht
  · exact ⟨"&quot;".data, by simp [entities], by simp [List.isPrefixOf]⟩
  · simp at hh
  · simp at hh
  · simp at hh
  · simp at hh
  · simp at hh
  · exact hl t ht hh

/-- The escape helper's output never contains an unescaped ampersand. -/
theorem ampSafe_escapeL (s : List Char) : AmpSafe (escapeL s) := by
  induction s with
  | nil => exact ampSafe_nil
  | cons c cs ih =>
    have hstep : escapeL (c :: cs) = escapeChar c ++ escapeL cs := by
      simp [escapeL]
    rw [hstep]
    unfold escapeChar
    split_ifs with h1 h2 h3 h4
    · exact ampSafe_amp _ ih
    · exact ampSafe_lt _ ih
    · exact ampSafe_gt _ ih
    · exact ampSafe_quot _ ih
    · exact ampSafe_cons c _ h1 ih

/-- The escape helper's output has no unescaped occurrence of any of the
four dangerous characters. -/
theorem noUnescaped_escapeL (s : List Char) : noUnescaped (escapeL s) := by
  refine ⟨fun h => ?_, fun h => ?_, fun h => ?_, ampSafe_escapeL s⟩
  · exact escapeL_no_lt s _ h rfl
  · exact escapeL_no_gt s _ h rfl
  · exact escapeL_no_quot s _ h rfl

theorem applyEvent_rest (d : Dom) (e : DomEvent) : (applyEvent d e).rest = d.rest := by
  cases e <;> rfl

/-- C1: for every valid `ServerInfoResponse` with N players, after the
render callback of `update_info_page` completes, the players table holds
exactly N rows, and parsing each row's markup yields exactly two cells
whose contents are the HTML-escaped `name` and `skin` of the corresponding
player, in response order. -/
theorem C1_player_rows (static_dir : String) (data : ServerInfoResponse) (d : Dom) :
    (render_callback static_dir data d).players_table.length = data.players.length ∧
    (render_callback static_dir data d).players_table.map (fun r => parseCells r.data) =
      data.players.map (fun p => some [escapeL p.name.data, escapeL p.skin.data]) := by
  rw [render_callback_eq]
  refine ⟨by simp, ?_⟩
  simp [List.map_map, Function.comp, parseCells_row_html]

/-- C2: `update_background` sets the body background to
`url('{static_dir}/img/{image}')` exactly when the image identifier is
present, non-empty and not the literal `"None"`; when it is `"None"`,
absent or empty the whole DOM state is left unchanged. -/
theorem C2_background_rule (image : Option String) (static_dir : String) (d : Dom) :
    (∀ img, image = some img → img ≠ "" → img ≠ "None" →
      update_background image static_dir d =
        { d with backgroundImage := "url(\x27" ++ static_dir ++ "/img/" ++ img ++ "\x27)" }) ∧
    ((image = none ∨ image = some "" ∨ image = some "None") →
      update_background image static_dir d = d) := by
  constructor
  · rintro img rfl h1 h2
    rw [update_background_eq]
    simp [h1, h2]
  · rintro (rfl | rfl | rfl) <;> rw [update_background_eq] <;> simp

/-- Witness for C2 at `map.image = "town.jpg"`, `static_dir = "/static"`
and at `map.image = "None"`. -/
theorem C2_background_rule_witness :
    update_background (some "town.jpg") "/static" ⟨"t", "s", [], "bg", []⟩ =
      ⟨"t", "s", [], "url(\x27/static/img/town.jpg\x27)", []⟩ ∧
    update_background (some "None") "/static" ⟨"t", "s", [], "bg", []⟩ =
      ⟨"t", "s", [], "bg", []⟩ := by
  constructor
  · have h := (C2_background_rule (some "town.jpg") "/static" ⟨"t", "s", [], "bg", []⟩).1
      "town.jpg" rfl (by decide) (by decide)
    simpa using h
  · exact (C2_background_rule (some "None") "/static" ⟨"t", "s", [], "bg", []⟩).2
      (Or.inr (Or.inr rfl))

/-- C3: rendering the same response twice yields an identical players-table
structure; the table after any render depends only on the response (rows
from the previous run are fully cleared, so rows never accumulate). -/
theorem C3_render_idempotent (static_dir : String) (data : ServerInfoResponse) (d : Dom) :
    (render_callback static_dir data (render_callback static_dir data d)).players_table =
      (render_callback static_dir data d).players_table ∧
    ∀ d' : Dom, (render_callback static_dir data d').players_table =
      data.players.map row_html := by
  refine ⟨?_, fun d' => ?_⟩
  · rw [render_callback_eq, render_callback_eq]
  · rw [render_callback_eq]

/-- C4: for every player whose `name` or `skin` contains one of `<`, `>`,
`&`, `"`, the cell contents parsed out of that player's rendered row
contain no literal unescaped occurrence of those characters. -/
theorem C4_cells_escaped (p : Player)
    (_h : ∃ c ∈ ['<', '>', '&', '\x22'], c ∈ p.name.data ∨ c ∈ p.skin.data) :
    ∀ cells, parseCells (row_html p).data = some cells → ∀ e ∈ cells, noUnescaped e := by
  intro cells hc e he
  rw [parseCells_row_html] at hc
  obtain rfl := Option.some.inj hc
  simp only [List.mem_cons, List.not_mem_nil, or_false] at he
  rcases he with rfl | rfl
  · exact noUnescaped_escapeL _
  · exact noUnescaped_escapeL _

/-- Witness for C4 at the spec's example player `{name: "A<b>", skin: "us"}`. -/
theorem C4_cells_escaped_witness :
    (∃ c ∈ ['<', '>', '&', '\x22'], c ∈ "A<b>".data ∨ c ∈ "us".data) ∧
    (∀ cells, parseCells (row_html ⟨"A<b>", "us"⟩).data = some cells →
      ∀ e ∈ cells, noUnescaped e) :=
  ⟨by decide, C4_cells_escaped ⟨"A<b>", "us"⟩ (by decide)⟩

/-- C5 counterexample: on a response with an image and one player, the
statement trace of the render callback places the background assignment
immediately after the table clear and before the row append, so the
background update is not the final step. -/
theorem C5_counterexample :
    render_events "/s" ⟨"S", ⟨"M", some "a.jpg"⟩, [⟨"P", "K"⟩]⟩ =
      [DomEvent.setMapTitle "M", DomEvent.setServerName "S", DomEvent.clearPlayersTable,
        DomEvent.setBackground "url(\x27/s/img/a.jpg\x27)",
        DomEvent.appendRow "<td>P</td><td>K</td>"] ∧
    (render_events "/s" ⟨"S", ⟨"M", some "a.jpg"⟩, [⟨"P", "K"⟩]⟩).getLast? ≠
      some (DomEvent.setBackground "url(\x27/s/img/a.jpg\x27)") := by
  constructor <;> decide

/-- C5 amended: the render callback performs its DOM updates in source
order — map title, server name, clear the players table, then
`update_background(data.map.image)`, and only then append one row per
player (the background update precedes the row appends, it is not the
final step). -/
theorem C5_update_order (static_dir : String) (data : ServerInfoResponse) (d : Dom) :
    render_callback static_dir data d =
      data.players.foldl (fun dd p => applyEvent dd (DomEvent.appendRow (row_html p)))
        (update_background data.map.image static_dir
          (applyEvent (applyEvent (applyEvent d (DomEvent.setMapTitle data.map.name))
            (DomEvent.setServerName data.servername)) DomEvent.clearPlayersTable)) := by
  unfold render_callback render_events
  rw [List.foldl_append, List.foldl_append, List.foldl_map]
  rfl

/-- C6: the render callback writes `data.map.name` into the map-title
element and `data.servername` into the server-name element verbatim (raw,
with no escaping applied). -/
theorem C6_raw_title_and_name (static_dir : String) (data : ServerInfoResponse) (d : Dom) :
    (render_callback static_dir data d).map_title = data.map.name ∧
    (render_callback static_dir data d).server_name = data.servername := by
  rw [render_callback_eq]
  exact ⟨rfl, rfl⟩

/-- C7: when the asynchronous chain rejects before the callback (network
failure, or a body that fails JSON parsing — including non-2xx error
pages), the callback never runs: the DOM is exactly the previous snapshot
and the cycle ends as an unhandled rejection, with no retry and no
fallback content. -/
theorem C7_failure_no_update (static_dir : String) (f : Promise Response) (d : Dom)
    (h : f = Promise.rejected ∨ ∃ r, f = Promise.resolved r ∧ r.json = Promise.rejected) :
    update_info_page static_dir f d = (d, true) := by
  rcases h with rfl | ⟨r, rfl, hr⟩
  · rfl
  · simp [update_info_page, get_server_info, Promise.andThen, hr]

/-- Witness for C7: a rejected fetch and a fetch whose body fails to parse
both leave a concrete DOM unchanged. -/
theorem C7_failure_no_update_witness :
    update_info_page "/s" Promise.rejected ⟨"t", "s", [], "bg", []⟩ =
      (⟨"t", "s", [], "bg", []⟩, true) ∧
    update_info_page "/s" (Promise.resolved ⟨Promise.rejected⟩) ⟨"t", "s", [], "bg", []⟩ =
      (⟨"t", "s", [], "bg", []⟩, true) :=
  ⟨C7_failure_no_update "/s" Promise.rejected _ (Or.inl rfl),
    C7_failure_no_update "/s" (Promise.resolved ⟨Promise.rejected⟩) _
      (Or.inr ⟨⟨Promise.rejected⟩, rfl, rfl⟩)⟩

/-- C8 counterexample: two overlapping refreshes where the later-arriving
response has `image = "None"`; the final DOM keeps the earlier response's
background, so it does not equal the later response's own rendering. -/
theorem C8_counterexample :
    render_callback "/s" ⟨"SB", ⟨"MB", some "None"⟩, []⟩
        (render_callback "/s" ⟨"SA", ⟨"MA", some "a.jpg"⟩, []⟩ ⟨"t", "s", [], "bg", []⟩) ≠
      render_callback "/s" ⟨"SB", ⟨"MB", some "None"⟩, []⟩ ⟨"t", "s", [], "bg", []⟩ := by
  decide

/-- C8 amended: with overlapping refreshes both callbacks run to completion
in arrival order and the later-arriving response determines the map title,
server name and player table (they match its own rendering, independent of
issue order); the final DOM equals the later response's full rendering
when that response's image is set (non-empty and not `"None"`), while
otherwise the background keeps the value the earlier callback left. -/
theorem C8_later_callback_wins (static_dir : String) (A B : ServerInfoResponse) (d : Dom) :
    (render_callback static_dir B (render_callback static_dir A d)).map_title =
      (render_callback static_dir B d).map_title ∧
    (render_callback static_dir B (render_callback static_dir A d)).server_name =
      (render_callback static_dir B d).server_name ∧
    (render_callback static_dir B (render_callback static_dir A d)).players_table =
      (render_callback static_dir B d).players_table ∧
    (∀ img, B.map.image = some img → img ≠ "" → img ≠ "None" →
      render_callback static_dir B (render_callback static_dir A d) =
        render_callback static_dir B d) ∧
    ((B.map.image = none ∨ B.map.image = some "" ∨ B.map.image = some "None") →
      (render_callback static_dir B (render_callback static_dir A d)).backgroundImage =
        (render_callback static_dir A d).backgroundImage) := by
  refine ⟨?_, ?_, ?_, ?_, ?_⟩
  · simp only [render_callback_eq]
  · simp only [render_callback_eq]
  · simp only [render_callback_eq]
  · rintro img himg h1 h2
    simp only [render_callback_eq, himg]
    simp [update_background_eq, h1, h2]
  · rintro (himg | himg | himg) <;>
      simp only [render_callback_eq, himg] <;> simp [update_background_eq]

/-- Witness for C8 amended: with a later response whose image is set, the
final DOM equals that response's own rendering. -/
theorem C8_later_callback_wins_witness :
    render_callback "/s" ⟨"SB", ⟨"MB", some "b.jpg"⟩, []⟩
        (render_callback "/s" ⟨"SA", ⟨"MA", some "a.jpg"⟩, []⟩ ⟨"t", "s", [], "bg", []⟩) =
      render_callback "/s" ⟨"SB", ⟨"MB", some "b.jpg"⟩, []⟩ ⟨"t", "s", [], "bg", []⟩ :=
  (C8_later_callback_wins "/s" ⟨"SA", ⟨"MA", some "a.jpg"⟩, []⟩
    ⟨"SB", ⟨"MB", some "b.jpg"⟩, []⟩ ⟨"t", "s", [], "bg", []⟩).2.2.2.1
    "b.jpg" rfl (by decide) (by decide)

/-- C9: a completed render touches only the four modelled DOM locations;
the `rest` of the document is unchanged by the render callback (on valid
and on raw responses) and by `update_background`. -/
theorem C9_frame (static_dir : String) (data : ServerInfoResponse) (image : Option String)
    (raw : RawResponse) (d : Dom) :
    (render_callback static_dir data d).rest = d.rest ∧
    (update_background image static_dir d).rest = d.rest ∧
    (render_callback_raw static_dir raw d).1.rest = d.rest := by
  refine ⟨?_, (update_background_frame image static_dir d).2.2.2, ?_⟩
  · rw [render_callback_eq]
  · unfold render_callback_raw
    cases hm : raw.map with
    | none => rfl
    | some m =>
      cases hp : raw.players with
      | none =>
        simp only []
        rw [(update_background_frame m.image static_dir _).2.2.2]
        rfl
      | some ps =>
        simp only []
        have hrows : ∀ dd : Dom,
            (ps.foldl (fun x p => applyEvent x (DomEvent.appendRow (row_html p))) dd).rest =
              dd.rest := by
          intro dd
          have h1 : ((ps.map row_html).map DomEvent.appendRow).foldl applyEvent dd =
              ps.foldl (fun x p => applyEvent x (DomEvent.appendRow (row_html p))) dd := by
            rw [List.map_map, List.foldl_map]
            rfl
          rw [← h1, foldl_appendRow]
        rw [hrows, (update_background_frame m.image static_dir _).2.2.2]
        rfl

/-- C10 counterexample: a parsed response lacking `map` makes the callback
throw on its very first statement, so the DOM is left entirely unchanged —
in particular the server name and the player table do not reflect the new
response, contradicting the claimed partially-updated state. -/
theorem C10_counterexample :
    render_callback_raw "/s" ⟨"NEW", none, some []⟩ ⟨"t0", "s0", ["r0"], "bg0", []⟩ =
      (⟨"t0", "s0", ["r0"], "bg0", []⟩, true) ∧
    (render_callback_raw "/s" ⟨"NEW", none, some []⟩
      ⟨"t0", "s0", ["r0"], "bg0", []⟩).1.server_name ≠ "NEW" ∧
    (render_callback_raw "/s" ⟨"NEW", none, some []⟩
      ⟨"t0", "s0", ["r0"], "bg0", []⟩).1.players_table ≠ [] := by
  refine ⟨rfl, by decide, by decide⟩

/-- C10 amended: the render is not atomic, and how much of the DOM a
structurally malformed (but parsed) response updates depends on the first
missing field: with `map` absent the callback throws before any DOM write
(previous snapshot kept); with `map` present but `players` absent (or not
a sequence) the map title, server name, cleared table and background
already reflect the new response while no player row was appended. -/
theorem C10_partial_update (static_dir : String) (data : RawResponse) (d : Dom) :
    (data.map = none → render_callback_raw static_dir data d = (d, true)) ∧
    (∀ m, data.map = some m → data.players = none →
      render_callback_raw static_dir data d =
        (update_background m.image static_dir
          { d with map_title := m.name, server_name := data.servername, players_table := ([] : List String) },
          true)) := by
  constructor
  · intro h
    unfold render_callback_raw
    rw [h]
  · intro m hm hp
    unfold render_callback_raw
    rw [hm]
    simp only [hp]
    rfl

/-- Witness for C10 amended: both malformed shapes at concrete inputs — a
missing `map` leaves the DOM untouched; a missing `players` leaves the
title, name, cleared table and background updated with no rows. -/
theorem C10_partial_update_witness :
    render_callback_raw "/s" ⟨"S1", none, some []⟩ ⟨"t", "s", ["r0"], "bg", []⟩ =
      (⟨"t", "s", ["r0"], "bg", []⟩, true) ∧
    render_callback_raw "/s" ⟨"S2", some ⟨"M2", some "m.jpg"⟩, none⟩
        ⟨"t", "s", ["r0"], "bg", []⟩ =
      (⟨"M2", "S2", [], "url(\x27/s/img/m.jpg\x27)", []⟩, true) := by
  constructor
  · exact (C10_partial_update "/s" ⟨"S1", none, some []⟩ ⟨"t", "s", ["r0"], "bg", []⟩).1 rfl
  · have h := (C10_partial_update "/s" ⟨"S2", some ⟨"M2", some "m.jpg"⟩, none⟩
      ⟨"t", "s", ["r0"], "bg", []⟩).2 ⟨"M2", some "m.jpg"⟩ rfl rfl
    rw [h]
    decide
